import Mathlib

/-!
Shallow embedding of the result-extraction and report-assembly pipeline of
src/app.py: the text sanitizer `safe_encode`, the regex-based result
extractor, the JSON parser boundary, and the per-record report renderer.

Python strings are modelled as lists of unicode characters (`PyStr`);
Python None as the `none` of an `Option`; Python code that can raise is
modelled as an `Except` value carrying the exception text.  Definitions are
translated from src/app.py; definitions whose names start with `spec` are
instead written from the specification text, to be compared with the
source-side ones.
-/

/-- Python strings, modelled as lists of characters. -/
abbrev PyStr := List Char

/-- Shorthand turning a Lean string literal into the `PyStr` model. -/
def pstr (s : String) : PyStr := s.toList

/-- Left single quotation mark, U+2018. -/
def lsq : Char := Char.ofNat 0x2018

/-- Right single quotation mark, U+2019. -/
def rsq : Char := Char.ofNat 0x2019

/-- Left double quotation mark, U+201C. -/
def ldq : Char := Char.ofNat 0x201C

/-- Right double quotation mark, U+201D. -/
def rdq : Char := Char.ofNat 0x201D

/-- En dash, U+2013. -/
def enDash : Char := Char.ofNat 0x2013

/-- Em dash, U+2014. -/
def emDash : Char := Char.ofNat 0x2014

/-- Horizontal ellipsis, U+2026. -/
def hellip : Char := Char.ofNat 0x2026

/-- Shield emoji base character, U+1F6E1 (first code point of the two-code-point
emoji that appears as a key of the replacement dict in src/app.py line 19). -/
def shield : Char := Char.ofNat 0x1F6E1

/-- Variation selector 16, U+FE0F (second code point of the shield emoji key). -/
def varSel : Char := Char.ofNat 0xFE0F

/-- The ASCII apostrophe character. -/
def squote : Char := Char.ofNat 39

/-- The ASCII double-quote character. -/
def dquote : Char := Char.ofNat 34

/-- Python `text.replace(p, r)` for a one-character pattern `p`: every
occurrence of `p` is replaced by `r`, scanning left to right as CPython
does. -/
def replaceChar (p : Char) (r : PyStr) : PyStr → PyStr
  | [] => []
  | c :: rest =>
    if c = p then r ++ replaceChar p r rest else c :: replaceChar p r rest

/-- Python `text.replace(p, r)` for a two-character pattern `a, b`:
non-overlapping occurrences of the pair are replaced left to right, and
scanning resumes after each replacement, as CPython does. -/
def replacePair (a b : Char) (r : PyStr) : PyStr → PyStr
  | [] => []
  | [c] => [c]
  | c :: d :: rest =>
    if c = a ∧ d = b then r ++ replacePair a b r rest
    else c :: replacePair a b r (d :: rest)

/-- The `for s, r in replacements.items(): text = text.replace(s, r)` loop of
`safe_encode` (src/app.py lines 17-22), with the eight dict entries applied in
dict insertion order.  The source dict spells the em dash key twice (once as a
unicode escape and once literally); a Python dict keeps one entry per key, so
eight replaces run.  All patterns are one character except the shield emoji,
which is the two-code-point sequence U+1F6E1 U+FE0F. -/
def applyReplacements (s : PyStr) : PyStr :=
  replacePair shield varSel []
    (replaceChar hellip ['.', '.', '.']
      (replaceChar emDash ['-']
        (replaceChar enDash ['-']
          (replaceChar rdq [dquote]
            (replaceChar ldq [dquote]
              (replaceChar rsq [squote]
                (replaceChar lsq [squote] s)))))))

/-- Python `text.encode('latin-1', 'ignore').decode('latin-1')`: every
character whose code point exceeds 255 is silently dropped. -/
def latin1Ignore (s : PyStr) : PyStr :=
  s.filter (fun c => c.toNat ≤ 255)

/-- The sanitizing body of `safe_encode` on a (truthy) string: apply the
replacement table, then drop everything Latin-1 cannot represent. -/
def sanitize (s : PyStr) : PyStr :=
  latin1Ignore (applyReplacements s)

/-- `safe_encode` (src/app.py lines 14-23).  The argument models a Python
string or None; `if not text: return ""` maps None and the empty string to
the empty string, every other string is sanitized. -/
def safe_encode : Option PyStr → PyStr
  | none => []
  | some s => if s.isEmpty then [] else sanitize s

/-- Concatenation of the images of each character under `f`, used to state
the per-character characterization of the sanitizer. -/
def charConcatMap (f : Char → PyStr) : PyStr → PyStr
  | [] => []
  | c :: rest => f c ++ charConcatMap f rest

/-- A single-character substitution step, the per-character reading of one
`text.replace` call with a one-character pattern. -/
def subOne (p : Char) (r : PyStr) (a : Char) : PyStr :=
  if a = p then r else [a]

/-- The combined substitution table read directly off the specification text:
curly quotes become straight quotes, en/em dashes a hyphen, the ellipsis
three periods, everything else is kept. -/
def subChar (c : Char) : PyStr :=
  if c = lsq ∨ c = rsq then [squote]
  else if c = ldq ∨ c = rdq then [dquote]
  else if c = enDash ∨ c = emDash then ['-']
  else if c = hellip then ['.', '.', '.']
  else [c]

/-- The specification's description of the whole sanitizer, per character:
known substitutions applied, every remaining character outside the Latin-1
range silently dropped (which also removes the shield emoji, both of whose
code points lie above 255). -/
def sanitizeChar (c : Char) : PyStr :=
  if c = lsq ∨ c = rsq then [squote]
  else if c = ldq ∨ c = rdq then [dquote]
  else if c = enDash ∨ c = emDash then ['-']
  else if c = hellip then ['.', '.', '.']
  else if c.toNat ≤ 255 then [c] else []

/-- The ASCII backslash character. -/
def bslash : Char := Char.ofNat 92

/-- Index of the first occurrence of `c` in the string, if any. -/
def firstIndexOf (c : Char) : PyStr → Option Nat
  | [] => none
  | a :: rest =>
    if a = c then some 0 else (firstIndexOf c rest).map (fun i => i + 1)

/-- Index of the last occurrence of `c` in the string, if any. -/
def lastIndexOf (c : Char) : PyStr → Option Nat
  | [] => none
  | a :: rest =>
    match lastIndexOf c rest with
    | some j => some (j + 1)
    | none => if a = c then some 0 else none

/-- One attempt of the regex engine to match the DOTALL pattern
bracket-dotstar-bracket at a fixed start position: the pattern demands a
literal opening bracket there, and the greedy dot-star (which crosses line
breaks under DOTALL) backtracks to the last closing bracket remaining in the
input.  Returns the matched text. -/
def matchHere : PyStr → Option PyStr
  | [] => none
  | c :: rest =>
    if c = '[' then
      match lastIndexOf ']' rest with
      | some j => some ('[' :: rest.take (j + 1))
      | none => none
    else none

/-- The search re.search of the DOTALL array pattern (src/app.py line 102):
try to match at each start position from the left and return the leftmost
match, if any. -/
def reSearchArr : PyStr → Option PyStr
  | [] => none
  | c :: rest =>
    match matchHere (c :: rest) with
    | some m => some m
    | none => reSearchArr rest

/-- Written from the specification text of the Result Extractor, for
comparison with `reSearchArr`: the substring that starts at the first opening
bracket and extends to the widest matching closing bracket, if one exists. -/
def specExtract (s : PyStr) : Option PyStr :=
  match firstIndexOf '[' s with
  | none => none
  | some i =>
    match lastIndexOf ']' (s.drop (i + 1)) with
    | none => none
    | some j => some ('[' :: (s.drop (i + 1)).take (j + 1))

/-- A text contains a JSON-array-shaped substring when some opening bracket
is followed, later, by a closing bracket; equivalently, when the first
opening bracket is. -/
def hasArrayShape (s : PyStr) : Bool :=
  match firstIndexOf '[' s with
  | none => false
  | some i => (s.drop (i + 1)).contains ']'

/-- JSON values as python json.loads produces them.  Numbers keep their sign
and their integer, fraction and exponent digit strings, which is enough to
decide Python truthiness and the int/float distinction; json.loads also
accepts the non-standard Infinity, -Infinity and NaN.  Objects keep the
parsed key/value pairs in source order; looking a key up takes its last
binding, which is what the Python dict built by the parser holds. -/
inductive Json where
  | null : Json
  | bool (b : Bool) : Json
  | num (neg : Bool) (ip fp ep : PyStr) : Json
  | inf (neg : Bool) : Json
  | nan : Json
  | str (s : PyStr) : Json
  | arr (elems : List Json) : Json
  | obj (fields : List (PyStr × Json)) : Json

/-- The whitespace characters json.loads skips between tokens. -/
def isJsonWs (c : Char) : Bool :=
  c = ' ' ∨ c = Char.ofNat 9 ∨ c = Char.ofNat 10 ∨ c = Char.ofNat 13

/-- Skip inter-token whitespace. -/
def skipWs (s : PyStr) : PyStr := s.dropWhile isJsonWs

/-- Value of one hexadecimal digit. -/
def hexVal (c : Char) : Option Nat :=
  if 48 ≤ c.toNat ∧ c.toNat ≤ 57 then some (c.toNat - 48)
  else if 97 ≤ c.toNat ∧ c.toNat ≤ 102 then some (c.toNat - 87)
  else if 65 ≤ c.toNat ∧ c.toNat ≤ 70 then some (c.toNat - 55)
  else none

/-- The single-character JSON string escapes. -/
def escChar (e : Char) : Option Char :=
  if e = dquote then some dquote
  else if e = bslash then some bslash
  else if e = '/' then some '/'
  else if e = 'b' then some (Char.ofNat 8)
  else if e = 'f' then some (Char.ofNat 12)
  else if e = 'n' then some (Char.ofNat 10)
  else if e = 'r' then some (Char.ofNat 13)
  else if e = 't' then some (Char.ofNat 9)
  else none

/-- Parse the body of a JSON string after its opening quote, as the strict
python scanner does: raw control characters are rejected, unicode escapes are
decoded, and a surrogate pair written as two consecutive unicode escapes
becomes one character.  A lone surrogate escape, which a Lean character
cannot hold, decodes to the null character here (Python keeps it; no claim
depends on that corner). -/
def parseStrBody : Nat → PyStr → Except PyStr (PyStr × PyStr)
  | 0, _ => .error (pstr "fuel exhausted")
  | _ + 1, [] => .error (pstr "Unterminated string")
  | fuel + 1, c :: rest =>
    if c = dquote then .ok ([], rest)
    else if c = bslash then
      match rest with
      | [] => .error (pstr "Unterminated string")
      | e :: rest2 =>
        if e = 'u' then
          match rest2 with
          | h1 :: h2 :: h3 :: h4 :: rest3 =>
            match hexVal h1, hexVal h2, hexVal h3, hexVal h4 with
            | some a, some b, some c2, some d =>
              let n := ((a * 16 + b) * 16 + c2) * 16 + d
              if 0xD800 ≤ n ∧ n ≤ 0xDBFF then
                match rest3 with
                | e2 :: u2 :: rest4 =>
                  if e2 = bslash ∧ u2 = 'u' then
                    match rest4 with
                    | g1 :: g2 :: g3 :: g4 :: rest5 =>
                      match hexVal g1, hexVal g2, hexVal g3, hexVal g4 with
                      | some a2, some b2, some c3, some d2 =>
                        let m := ((a2 * 16 + b2) * 16 + c3) * 16 + d2
                        if 0xDC00 ≤ m ∧ m ≤ 0xDFFF then
                          (parseStrBody fuel rest5).map
                            (fun p =>
                              (Char.ofNat
                                  (0x10000 + (n - 0xD800) * 0x400 + (m - 0xDC00)) :: p.1,
                               p.2))
                        else
                          (parseStrBody fuel rest3).map
                            (fun p => (Char.ofNat n :: p.1, p.2))
                      | _, _, _, _ => .error (pstr "Invalid uXXXX escape")
                    | _ => .error (pstr "Invalid uXXXX escape")
                  else
                    (parseStrBody fuel rest3).map
                      (fun p => (Char.ofNat n :: p.1, p.2))
                | _ =>
                  (parseStrBody fuel rest3).map
                    (fun p => (Char.ofNat n :: p.1, p.2))
              else
                (parseStrBody fuel rest3).map (fun p => (Char.ofNat n :: p.1, p.2))
            | _, _, _, _ => .error (pstr "Invalid uXXXX escape")
          | _ => .error (pstr "Invalid uXXXX escape")
        else
          match escChar e with
          | some ch => (parseStrBody fuel rest2).map (fun p => (ch :: p.1, p.2))
          | none => .error (pstr "Invalid escape")
    else if c.toNat < 32 then .error (pstr "Invalid control character")
    else (parseStrBody fuel rest).map (fun p => (c :: p.1, p.2))

/-- The optional exponent of a JSON number, taken only when complete, as the
maximal-munch number regex of the python scanner does; never fails. -/
def numExp (neg : Bool) (ip fp : PyStr) (s : PyStr) : Except PyStr (Json × PyStr) :=
  match s with
  | e :: rest =>
    if e = 'e' ∨ e = 'E' then
      match rest with
      | sgn :: rest2 =>
        if sgn = '+' ∨ sgn = '-' then
          match rest2.takeWhile Char.isDigit with
          | [] => .ok (Json.num neg ip fp [], s)
          | ds => .ok (Json.num neg ip fp (e :: sgn :: ds), rest2.dropWhile Char.isDigit)
        else
          match rest.takeWhile Char.isDigit with
          | [] => .ok (Json.num neg ip fp [], s)
          | ds => .ok (Json.num neg ip fp (e :: ds), rest.dropWhile Char.isDigit)
      | [] => .ok (Json.num neg ip fp [], s)
    else .ok (Json.num neg ip fp [], s)
  | [] => .ok (Json.num neg ip fp [], s)

/-- The optional fraction of a JSON number: a dot not followed by a digit is
not part of the number. -/
def numFrac (neg : Bool) (ip : PyStr) (s : PyStr) : Except PyStr (Json × PyStr) :=
  match s with
  | '.' :: rest =>
    match rest.takeWhile Char.isDigit with
    | [] => numExp neg ip [] s
    | fp => numExp neg ip fp (rest.dropWhile Char.isDigit)
  | _ => numExp neg ip [] s

/-- Parse a JSON number per the python number regex: an optional minus, an
integer part without leading zeros, then the optional fraction and
exponent. -/
def parseNum (s : PyStr) : Except PyStr (Json × PyStr) :=
  match s with
  | '-' :: s1 =>
    match s1 with
    | '0' :: rest => numFrac true ['0'] rest
    | c :: rest =>
      if c.isDigit then
        numFrac true (c :: rest.takeWhile Char.isDigit) (rest.dropWhile Char.isDigit)
      else .error (pstr "Expecting value")
    | [] => .error (pstr "Expecting value")
  | '0' :: rest => numFrac false ['0'] rest
  | c :: rest =>
    if c.isDigit then
      numFrac false (c :: rest.takeWhile Char.isDigit) (rest.dropWhile Char.isDigit)
    else .error (pstr "Expecting value")
  | [] => .error (pstr "Expecting value")

mutual

/-- Parse one JSON value at the head of the input (leading whitespace already
consumed), as the python scanner dispatches: string, object, array,
null/true/false, number, then the NaN and Infinity constants. -/
def parseVal : Nat → PyStr → Except PyStr (Json × PyStr)
  | 0, _ => .error (pstr "fuel exhausted")
  | fuel + 1, s =>
    match s with
    | [] => .error (pstr "Expecting value")
    | c :: rest =>
      if c = dquote then
        (parseStrBody (rest.length + 1) rest).map (fun p => (Json.str p.1, p.2))
      else if c = '{' then parseObjBody fuel (skipWs rest)
      else if c = '[' then parseArrBody fuel (skipWs rest)
      else if c = 'n' then
        if rest.take 3 = pstr "ull" then .ok (Json.null, rest.drop 3)
        else .error (pstr "Expecting value")
      else if c = 't' then
        if rest.take 3 = pstr "rue" then .ok (Json.bool true, rest.drop 3)
        else .error (pstr "Expecting value")
      else if c = 'f' then
        if rest.take 4 = pstr "alse" then .ok (Json.bool false, rest.drop 4)
        else .error (pstr "Expecting value")
      else if c = 'N' then
        if rest.take 2 = pstr "aN" then .ok (Json.nan, rest.drop 2)
        else .error (pstr "Expecting value")
      else if c = 'I' then
        if rest.take 7 = pstr "nfinity" then .ok (Json.inf false, rest.drop 7)
        else .error (pstr "Expecting value")
      else if c = '-' ∧ rest.take 8 = pstr "Infinity" then
        .ok (Json.inf true, rest.drop 8)
      else if c = '-' ∨ c.isDigit then parseNum (c :: rest)
      else .error (pstr "Expecting value")

/-- Array body after the opening bracket, whitespace already skipped: either
the trivial empty array or the element loop. -/
def parseArrBody : Nat → PyStr → Except PyStr (Json × PyStr)
  | 0, _ => .error (pstr "fuel exhausted")
  | fuel + 1, s =>
    match s with
    | ']' :: rest => .ok (Json.arr [], rest)
    | _ => parseArrLoop fuel s []

/-- The array element loop: parse a value, then a comma (and continue) or the
closing bracket; anything else is a delimiter error.  Python writes the
delimiter message with a quoted comma; the quotes are elided here. -/
def parseArrLoop : Nat → PyStr → List Json → Except PyStr (Json × PyStr)
  | 0, _, _ => .error (pstr "fuel exhausted")
  | fuel + 1, s, acc =>
    match parseVal fuel s with
    | .error e => .error e
    | .ok (v, r) =>
      match skipWs r with
      | ']' :: rest => .ok (Json.arr (v :: acc).reverse, rest)
      | ',' :: rest => parseArrLoop fuel (skipWs rest) (v :: acc)
      | _ => .error (pstr "Expecting comma delimiter")

/-- Object body after the opening brace, whitespace already skipped: the
trivial empty object, or a double-quoted property name starting the member
loop. -/
def parseObjBody : Nat → PyStr → Except PyStr (Json × PyStr)
  | 0, _ => .error (pstr "fuel exhausted")
  | fuel + 1, s =>
    match s with
    | '}' :: rest => .ok (Json.obj [], rest)
    | c :: rest =>
      if c = dquote then parseObjLoop fuel rest []
      else .error (pstr "Expecting property name enclosed in double quotes")
    | [] => .error (pstr "Expecting property name enclosed in double quotes")

/-- The object member loop, entered just after the opening quote of a key:
parse the key, a colon, the value, then a comma and the next quoted key, or
the closing brace. -/
def parseObjLoop : Nat → PyStr → List (PyStr × Json) → Except PyStr (Json × PyStr)
  | 0, _, _ => .error (pstr "fuel exhausted")
  | fuel + 1, s, acc =>
    match parseStrBody (s.length + 1) s with
    | .error e => .error e
    | .ok (key, r) =>
      match skipWs r with
      | ':' :: r2 =>
        match parseVal fuel (skipWs r2) with
        | .error e => .error e
        | .ok (v, r3) =>
          match skipWs r3 with
          | '}' :: r4 => .ok (Json.obj ((key, v) :: acc).reverse, r4)
          | ',' :: r4 =>
            match skipWs r4 with
            | c :: r5 =>
              if c = dquote then parseObjLoop fuel r5 ((key, v) :: acc)
              else .error (pstr "Expecting property name enclosed in double quotes")
            | [] => .error (pstr "Expecting property name enclosed in double quotes")
          | _ => .error (pstr "Expecting comma delimiter")
      | _ => .error (pstr "Expecting colon delimiter")

end

/-- Python json.loads (src/app.py line 104): skip surrounding whitespace,
parse one value, and require the input to be exhausted.  The fuel is an upper
bound on the number of scanner steps: every step either consumes input or
enters one of at most three nested phases per consumed character, so four
times the length is ample and the fuel branches are unreachable from here. -/
def json_loads (s : PyStr) : Except PyStr Json :=
  match parseVal (4 * s.length + 8) (skipWs s) with
  | .error e => .error e
  | .ok (v, rest) =>
    if (skipWs rest).isEmpty then .ok v else .error (pstr "Extra data")

/-- Python dict lookup on the dict json.loads builds: a repeated key keeps
its last value. -/
def dictGet : List (PyStr × Json) → PyStr → Option Json
  | [], _ => none
  | kv :: rest, k =>
    match dictGet rest k with
    | some v => some v
    | none => if kv.1 = k then some kv.2 else none

/-- Python item.get(k, d). -/
def dictGetD (fs : List (PyStr × Json)) (k : PyStr) (d : Json) : Json :=
  (dictGet fs k).getD d

/-- The six field reads of the render loop (src/app.py lines 113-138): the
record-construction step of the Data Model, one item.get with its default per
field.  It is total: a missing field falls back to its default and can never
fail. -/
structure RawRecord where
  title : Json
  url : Json
  industry : Json
  summary : Json
  tip : Json
  insurance : Json

/-- Construct the record for one parsed object via the item.get calls of the
render loop. -/
def mkRecord (fs : List (PyStr × Json)) : RawRecord :=
  ⟨dictGetD fs (pstr "title") (Json.str (pstr "N/A")),
   dictGetD fs (pstr "url") (Json.str (pstr "Source URL missing")),
   dictGetD fs (pstr "industry") (Json.str (pstr "General")),
   dictGetD fs (pstr "summary") (Json.str []),
   dictGetD fs (pstr "tip") (Json.str []),
   dictGetD fs (pstr "Cyber Insurance") (Json.str [])⟩

/-- Python truthiness of a parsed JSON value (a number is falsy exactly when
all its mantissa digits are zero). -/
def truthy : Json → Bool
  | .null => false
  | .bool b => b
  | .num _ ip fp _ => !(ip.all (fun c => c = '0') && fp.all (fun c => c = '0'))
  | .inf _ => true
  | .nan => true
  | .str s => !s.isEmpty
  | .arr xs => !xs.isEmpty
  | .obj fs => !fs.isEmpty

/-- The Python type name of a parsed JSON value, as an AttributeError message
spells it. -/
def pyTypeName : Json → PyStr
  | .null => pstr "NoneType"
  | .bool _ => pstr "bool"
  | .num _ _ fp ep => if fp.isEmpty && ep.isEmpty then pstr "int" else pstr "float"
  | .inf _ => pstr "float"
  | .nan => pstr "float"
  | .str _ => pstr "str"
  | .arr _ => pstr "list"
  | .obj _ => pstr "dict"

/-- safe_encode as the render loop calls it, on a parsed JSON value: a falsy
value returns the empty string, a truthy string is sanitized, and a truthy
non-string raises AttributeError at text.replace (the Python message quotes
the type name; the quotes are elided here). -/
def safeEncodeVal (v : Json) : Except PyStr PyStr :=
  if truthy v then
    match v with
    | .str s => .ok (sanitize s)
    | _ => .error (pyTypeName v ++ pstr " object has no attribute replace")
  else .ok []

/-- One incident section as the render loop draws it: the texts handed to the
PDF cells and the raw string handed to the cell link parameter
(src/app.py lines 109-140). -/
structure RenderedSection where
  titleText : PyStr
  sourceText : PyStr
  linkArg : PyStr
  industryLine : PyStr
  summaryText : PyStr
  tipText : PyStr
  insuranceText : PyStr

/-- FPDF.cell attaches a link annotation exactly when its link argument is
truthy; for the string links this code passes, that means nonempty. -/
def sectionHasLink (sec : RenderedSection) : Bool := !sec.linkArg.isEmpty

/-- One iteration of the render loop (src/app.py lines 110-140) over one
parsed object: each field of the constructed record is run through
safe_encode (which raises on truthy non-strings); the url field is embedded,
sanitized, into the displayed source line, and also passed raw as the cell
link argument.  A url value that is neither absent nor a string is modelled
as a failed run: Python would still render its text through the f-string, but
a truthy non-string link argument makes the PDF engine raise at output time,
so no report appears either way (a falsy one would render without a link; no
claim exercises that corner). -/
def renderItem (fs : List (PyStr × Json)) : Except PyStr RenderedSection :=
  let r := mkRecord fs
  match safeEncodeVal r.title with
  | .error e => .error e
  | .ok titleTxt =>
    match r.url with
    | .str u =>
      match safeEncodeVal r.industry with
      | .error e => .error e
      | .ok industryTxt =>
        match safeEncodeVal r.summary with
        | .error e => .error e
        | .ok summaryTxt =>
          match safeEncodeVal r.tip with
          | .error e => .error e
          | .ok tipTxt =>
            match safeEncodeVal r.insurance with
            | .error e => .error e
            | .ok insTxt =>
              .ok ⟨titleTxt,
                   safe_encode (some (pstr "Read Source: " ++ u)), u,
                   pstr "Industry: " ++ industryTxt,
                   pstr "Summary: " ++ summaryTxt,
                   pstr "Risk Tip: " ++ tipTxt,
                   pstr "Insurance: " ++ insTxt⟩
    | _ => .error (pstr "unmodelled link value")

/-- The body of the render loop over the sliced list: each element must be an
object, or item.get raises AttributeError. -/
def renderSectionsGo : List Json → Except PyStr (List RenderedSection)
  | [] => .ok []
  | item :: rest =>
    match item with
    | .obj fs =>
      match renderItem fs with
      | .error e => .error e
      | .ok sec =>
        match renderSectionsGo rest with
        | .error e => .error e
        | .ok secs => .ok (sec :: secs)
    | v => .error (pyTypeName v ++ pstr " object has no attribute get")

/-- The render loop for item in data[:4] (src/app.py line 109): at most the
first four elements are rendered, in order. -/
def renderSections (data : List Json) : Except PyStr (List RenderedSection) :=
  renderSectionsGo (data.take 4)

/-- The outcome of one button-triggered run as the user sees it: the
extraction-failure message of the no-match branch (st.error, src/app.py line
153), a run failure surfaced by the top-level except (line 156), or a report
offered for download (lines 145-151). -/
inductive RunOutcome where
  | extractionFailure : RunOutcome
  | runFailure (e : PyStr) : RunOutcome
  | report (secs : List RenderedSection) : RunOutcome

/-- Whether a run produced a downloadable report artifact. -/
def reportGenerated : RunOutcome → Bool
  | .report _ => true
  | _ => false

/-- The records a run produced. -/
def recordsOf : RunOutcome → List RenderedSection
  | .report secs => secs
  | _ => []

/-- The user-visible error display of an outcome: the fixed message of the
no-match branch, or Error: followed by the exception text.  The success
branch shows a success banner and a download button instead and carries no
error display. -/
def displayOf : RunOutcome → PyStr
  | .extractionFailure =>
    pstr "Agents could not verify enough authentic sources. Try again."
  | .runFailure e => pstr "Error: " ++ e
  | .report _ => []

/-- The extraction-and-render pipeline on the raw pipeline output
(src/app.py lines 102-153): regex-search for the array-shaped substring,
json.loads exactly the matched substring, slice to four items, render each.
json.loads of a text whose first character is an opening bracket can only
return a list or fail, but the non-list branch is kept for totality: Python
would raise a TypeError on slicing such a value. -/
def processRaw (raw : PyStr) : RunOutcome :=
  match reSearchArr raw with
  | none => .extractionFailure
  | some span =>
    match json_loads span with
    | .error e => .runFailure e
    | .ok (Json.arr items) =>
      match renderSections items with
      | .error e => .runFailure e
      | .ok secs => .report secs
    | .ok v => .runFailure (pyTypeName v ++ pstr " is not sliceable")

/-- A known record field is, where present, a string. -/
def strOrAbsent (fs : List (PyStr × Json)) (k : PyStr) : Bool :=
  match dictGet fs k with
  | none => true
  | some (.str _) => true
  | some _ => false

/-- A parsed array element all of whose known record fields are, where
present, strings: the hypothesis of the amended render-count claim. -/
def itemFieldsOk : Json → Bool
  | .obj fs =>
    strOrAbsent fs (pstr "title") && strOrAbsent fs (pstr "url") &&
    strOrAbsent fs (pstr "industry") && strOrAbsent fs (pstr "summary") &&
    strOrAbsent fs (pstr "tip") && strOrAbsent fs (pstr "Cyber Insurance")
  | _ => false

theorem replaceChar_eq (p : Char) (r : PyStr) :
    ∀ s : PyStr, replaceChar p r s = charConcatMap (subOne p r) s := by
  intro s
  induction s with
  | nil => rfl
  | cons c rest ih =>
    by_cases h : c = p <;> simp [replaceChar, charConcatMap, subOne, h, ih]

theorem charConcatMap_append (f : Char → PyStr) (xs ys : PyStr) :
    charConcatMap f (xs ++ ys) = charConcatMap f xs ++ charConcatMap f ys := by
  induction xs with
  | nil => simp [charConcatMap]
  | cons c rest ih => simp [charConcatMap, ih]

theorem charConcatMap_comp (f g : Char → PyStr) (s : PyStr) :
    charConcatMap g (charConcatMap f s)
      = charConcatMap (fun c => charConcatMap g (f c)) s := by
  induction s with
  | nil => simp [charConcatMap]
  | cons c rest ih => simp [charConcatMap, charConcatMap_append, ih]

theorem charConcatMap_congr (f g : Char → PyStr) (h : ∀ c, f c = g c) :
    ∀ s : PyStr, charConcatMap f s = charConcatMap g s := by
  intro s
  induction s with
  | nil => rfl
  | cons c rest ih => simp [charConcatMap, h c, ih]

theorem latin1Ignore_charConcatMap (f : Char → PyStr) (s : PyStr) :
    latin1Ignore (charConcatMap f s)
      = charConcatMap (fun c => latin1Ignore (f c)) s := by
  induction s with
  | nil => simp [charConcatMap, latin1Ignore]
  | cons c rest ih => simp [charConcatMap, latin1Ignore, List.filter_append] at ih ⊢; simp [ih]

theorem latin1Ignore_emoji_aux :
    ∀ n, ∀ s : PyStr, s.length ≤ n →
      latin1Ignore (replacePair shield varSel [] s) = latin1Ignore s := by
  intro n
  induction n with
  | zero =>
    intro s h
    have : s = [] := List.length_eq_zero.mp (Nat.le_zero.mp h)
    subst this
    rfl
  | succ n ih =>
    intro s h
    match s with
    | [] => rfl
    | [c] => rfl
    | c :: d :: rest =>
      rw [replacePair]
      by_cases hp : c = shield ∧ d = varSel
      · rw [if_pos hp]
        obtain ⟨hc, hd⟩ := hp
        subst hc; subst hd
        have hlen : rest.length ≤ n := by
          simp only [List.length_cons] at h; omega
        rw [List.nil_append, ih rest hlen]
        simp [latin1Ignore, shield, varSel]
      · rw [if_neg hp]
        have hlen : (d :: rest).length ≤ n := by
          simp only [List.length_cons] at h ⊢; omega
        have hrec := ih (d :: rest) hlen
        simp only [latin1Ignore] at hrec ⊢
        simp only [List.filter_cons, hrec]

theorem applyReplacements_eq (s : PyStr) :
    applyReplacements s
      = replacePair shield varSel [] (charConcatMap subChar s) := by
  rw [applyReplacements]
  simp only [replaceChar_eq, charConcatMap_comp]
  apply congrArg
  apply charConcatMap_congr
  intro c
  by_cases h1 : c = lsq
  · subst h1; decide
  by_cases h2 : c = rsq
  · subst h2; decide
  by_cases h3 : c = ldq
  · subst h3; decide
  by_cases h4 : c = rdq
  · subst h4; decide
  by_cases h5 : c = enDash
  · subst h5; decide
  by_cases h6 : c = emDash
  · subst h6; decide
  by_cases h7 : c = hellip
  · subst h7; decide
  simp [charConcatMap, subOne, subChar, h1, h2, h3, h4, h5, h6, h7]

theorem sanitize_eq_charConcatMap (s : PyStr) :
    sanitize s = charConcatMap sanitizeChar s := by
  rw [sanitize, applyReplacements_eq,
    latin1Ignore_emoji_aux (charConcatMap subChar s).length _ (Nat.le_refl _),
    latin1Ignore_charConcatMap]
  apply charConcatMap_congr
  intro c
  by_cases h1 : c = lsq
  · subst h1; decide
  by_cases h2 : c = rsq
  · subst h2; decide
  by_cases h3 : c = ldq
  · subst h3; decide
  by_cases h4 : c = rdq
  · subst h4; decide
  by_cases h5 : c = enDash
  · subst h5; decide
  by_cases h6 : c = emDash
  · subst h6; decide
  by_cases h7 : c = hellip
  · subst h7; decide
  by_cases h8 : c.toNat ≤ 255 <;>
    simp [latin1Ignore, subChar, sanitizeChar, h1, h2, h3, h4, h5, h6, h7, h8]

theorem sanitize_all_latin1 (s : PyStr) :
    (sanitize s).all (fun c => c.toNat ≤ 255) = true := by
  rw [List.all_eq_true]
  intro c hc
  rw [sanitize, latin1Ignore] at hc
  have := List.mem_filter.mp hc
  exact this.2

theorem sanitizeChar_fixed (c : Char) :
    charConcatMap sanitizeChar (sanitizeChar c) = sanitizeChar c := by
  by_cases h1 : c = lsq
  · subst h1; decide
  by_cases h2 : c = rsq
  · subst h2; decide
  by_cases h3 : c = ldq
  · subst h3; decide
  by_cases h4 : c = rdq
  · subst h4; decide
  by_cases h5 : c = enDash
  · subst h5; decide
  by_cases h6 : c = emDash
  · subst h6; decide
  by_cases h7 : c = hellip
  · subst h7; decide
  by_cases h8 : c.toNat ≤ 255
  · have hfix : sanitizeChar c = [c] := by
      simp [sanitizeChar, h1, h2, h3, h4, h5, h6, h7, h8]
    rw [hfix]
    simp [charConcatMap, hfix]
  · have hdrop : sanitizeChar c = [] := by
      simp [sanitizeChar, h1, h2, h3, h4, h5, h6, h7, h8]
    rw [hdrop]
    rfl

theorem sanitize_idem (s : PyStr) : sanitize (sanitize s) = sanitize s := by
  rw [sanitize_eq_charConcatMap s, sanitize_eq_charConcatMap, charConcatMap_comp]
  exact charConcatMap_congr _ _ sanitizeChar_fixed s

theorem safe_encode_some (s : PyStr) : safe_encode (some s) = sanitize s := by
  cases s with
  | nil => decide
  | cons c rest => simp [safe_encode]

theorem lastIndexOf_none_iff (c : Char) :
    ∀ l : PyStr, lastIndexOf c l = none ↔ ¬ c ∈ l := by
  intro l
  induction l with
  | nil => simp [lastIndexOf]
  | cons a r ih =>
    cases hr : lastIndexOf c r with
    | some j =>
      have hcr : c ∈ r := by
        by_contra hc
        rw [ih.mpr hc] at hr
        cases hr
      simp [lastIndexOf, hr, List.mem_cons, hcr]
    | none =>
      have hcr : ¬ c ∈ r := ih.mp hr
      by_cases ha : a = c
      · subst ha
        simp [lastIndexOf, hr, List.mem_cons]
      · simp [lastIndexOf, hr, List.mem_cons, hcr]
        exact not_congr eq_comm

theorem reSearchArr_eq_specExtract : ∀ s : PyStr, reSearchArr s = specExtract s := by
  intro s
  induction s with
  | nil => rfl
  | cons c rest ih =>
    by_cases h : c = '['
    · subst h
      cases hli : lastIndexOf ']' rest with
      | some j =>
        simp [reSearchArr, matchHere, hli, specExtract, firstIndexOf]
      | none =>
        have h1 : ¬ ']' ∈ rest := (lastIndexOf_none_iff ']' rest).mp hli
        have h2 : specExtract rest = none := by
          rw [specExtract]
          cases hfi : firstIndexOf '[' rest with
          | none => rfl
          | some i =>
            have hnone : lastIndexOf ']' (rest.drop (i + 1)) = none :=
              (lastIndexOf_none_iff _ _).mpr
                (fun hm => h1 (List.drop_subset _ _ hm))
            simp [hnone]
        have hL : reSearchArr ('[' :: rest) = none := by
          simp [reSearchArr, matchHere, hli, ih, h2]
        have hR : specExtract ('[' :: rest) = none := by
          rw [specExtract]
          simp [firstIndexOf, hli]
        rw [hL, hR]
    · have hm : matchHere (c :: rest) = none := by simp [matchHere, h]
      rw [reSearchArr, hm, ih]
      simp only [specExtract, firstIndexOf, if_neg h]
      cases hfi : firstIndexOf '[' rest with
      | none => simp [hfi]
      | some i => simp [hfi, List.drop_succ_cons]

/-- Claim C2: the regex search of the Result Extractor returns exactly the
substring that starts at the first opening bracket and extends, across line
breaks, to the widest closing bracket after it, and fails (leading to the
failure branch) exactly when no such substring exists. -/
theorem extractor_selects_first_to_widest (s : PyStr) :
    reSearchArr s = specExtract s :=
  reSearchArr_eq_specExtract s

theorem reSearchArr_none_of_no_shape (s : PyStr) (h : hasArrayShape s = false) :
    reSearchArr s = none := by
  rw [reSearchArr_eq_specExtract, specExtract]
  rw [hasArrayShape] at h
  cases hfi : firstIndexOf '[' s with
  | none => rfl
  | some i =>
    simp only [hfi] at h
    simp at h
    have hnone : lastIndexOf ']' (s.drop (i + 1)) = none :=
      (lastIndexOf_none_iff _ _).mpr h
    simp [hnone]

/-- Claim C3: raw text with no JSON-array-shaped substring (no opening
bracket followed later by a closing one) takes the extraction-failure branch:
the fixed user-visible message, no records, no report artifact. -/
theorem no_shape_extraction_failure (raw : PyStr) (h : hasArrayShape raw = false) :
    processRaw raw = RunOutcome.extractionFailure ∧
      recordsOf (processRaw raw) = [] ∧
      reportGenerated (processRaw raw) = false := by
  have hn := reSearchArr_none_of_no_shape raw h
  rw [processRaw, hn]
  exact ⟨rfl, rfl, rfl⟩

theorem no_shape_extraction_failure_witness :
    hasArrayShape (pstr "hello") = false ∧
      processRaw (pstr "hello") = RunOutcome.extractionFailure ∧
      recordsOf (processRaw (pstr "hello")) = [] ∧
      reportGenerated (processRaw (pstr "hello")) = false :=
  ⟨by decide, no_shape_extraction_failure (pstr "hello") (by decide)⟩

/-- Claim C4: when a span is found but json.loads rejects it, the run fails
with that parse error: an outcome distinct from the no-match branch both as a
value and in its displayed message, surfaced with the underlying error
description, and no report is generated. -/
theorem parse_failure_distinct (raw span e : PyStr)
    (h1 : reSearchArr raw = some span) (h2 : json_loads span = Except.error e) :
    processRaw raw = RunOutcome.runFailure e ∧
      RunOutcome.runFailure e ≠ RunOutcome.extractionFailure ∧
      displayOf (RunOutcome.runFailure e) = pstr "Error: " ++ e ∧
      displayOf (RunOutcome.runFailure e) ≠ displayOf RunOutcome.extractionFailure ∧
      reportGenerated (processRaw raw) = false := by
  have hp : processRaw raw = RunOutcome.runFailure e := by
    simp [processRaw, h1, h2]
  refine ⟨hp, ?_, rfl, ?_, by rw [hp]; rfl⟩
  · intro hcontra
    cases hcontra
  · intro hd
    have hE : (displayOf (RunOutcome.runFailure e)).head? = some 'E' := rfl
    have hA : (displayOf RunOutcome.extractionFailure).head? = some 'A' := rfl
    rw [hd, hA] at hE
    cases hE

theorem parse_failure_distinct_witness :
    reSearchArr (pstr "x[,]y") = some (pstr "[,]") ∧
      json_loads (pstr "[,]") = Except.error (pstr "Expecting value") ∧
      processRaw (pstr "x[,]y") = RunOutcome.runFailure (pstr "Expecting value") ∧
      RunOutcome.runFailure (pstr "Expecting value") ≠ RunOutcome.extractionFailure ∧
      displayOf (RunOutcome.runFailure (pstr "Expecting value"))
          = pstr "Error: " ++ pstr "Expecting value" ∧
      displayOf (RunOutcome.runFailure (pstr "Expecting value"))
          ≠ displayOf RunOutcome.extractionFailure ∧
      reportGenerated (processRaw (pstr "x[,]y")) = false := by
  have h := parse_failure_distinct (pstr "x[,]y") (pstr "[,]") (pstr "Expecting value") rfl rfl
  exact ⟨rfl, rfl, h.1, h.2.1, h.2.2.1, h.2.2.2.1, h.2.2.2.2⟩

theorem safeEncodeVal_str (s : PyStr) :
    safeEncodeVal (Json.str s) = Except.ok (safe_encode (some s)) := by
  cases s with
  | nil => rfl
  | cons c rest => simp [safeEncodeVal, truthy, safe_encode]

theorem dictGetD_isStr (fs : List (PyStr × Json)) (k : PyStr) (d : PyStr)
    (h : strOrAbsent fs k = true) :
    ∃ t, dictGetD fs k (Json.str d) = Json.str t := by
  rw [strOrAbsent] at h
  rw [dictGetD]
  cases hg : dictGet fs k with
  | none => exact ⟨d, rfl⟩
  | some v =>
    rw [hg] at h
    cases v with
    | str t => exact ⟨t, rfl⟩
    | null => simp at h
    | bool b => simp at h
    | num a b2 c2 d2 => simp at h
    | inf b => simp at h
    | nan => simp at h
    | arr xs => simp at h
    | obj o => simp at h

theorem renderItem_ok_of_fieldsOk (fs : List (PyStr × Json))
    (h : itemFieldsOk (Json.obj fs) = true) :
    ∃ sec, renderItem fs = Except.ok sec := by
  rw [itemFieldsOk] at h
  simp only [Bool.and_eq_true] at h
  obtain ⟨⟨⟨⟨⟨ht, hu⟩, hi⟩, hs⟩, hp⟩, hn⟩ := h
  obtain ⟨t1, e1⟩ := dictGetD_isStr fs (pstr "title") (pstr "N/A") ht
  obtain ⟨t2, e2⟩ := dictGetD_isStr fs (pstr "url") (pstr "Source URL missing") hu
  obtain ⟨t3, e3⟩ := dictGetD_isStr fs (pstr "industry") (pstr "General") hi
  obtain ⟨t4, e4⟩ := dictGetD_isStr fs (pstr "summary") [] hs
  obtain ⟨t5, e5⟩ := dictGetD_isStr fs (pstr "tip") [] hp
  obtain ⟨t6, e6⟩ := dictGetD_isStr fs (pstr "Cyber Insurance") [] hn
  simp only [renderItem, mkRecord, e1, e2, e3, e4, e5, e6, safeEncodeVal_str]
  exact ⟨_, rfl⟩

theorem renderSectionsGo_ok (l : List Json) (h : l.all itemFieldsOk = true) :
    ∃ secs, renderSectionsGo l = Except.ok secs ∧ secs.length = l.length ∧
      ∀ i, (hi : i < secs.length) → (hj : i < l.length) →
        ∃ fs, l.get ⟨i, hj⟩ = Json.obj fs ∧
          renderItem fs = Except.ok (secs.get ⟨i, hi⟩) := by
  induction l with
  | nil =>
    refine ⟨[], rfl, rfl, ?_⟩
    intro i hi hj
    exact absurd hi (by simp)
  | cons item rest ih =>
    rw [List.all_cons, Bool.and_eq_true] at h
    obtain ⟨h1, h2⟩ := h
    cases item with
    | obj fs =>
      obtain ⟨sec, hsec⟩ := renderItem_ok_of_fieldsOk fs h1
      obtain ⟨secs, hgo, hlen, hidx⟩ := ih h2
      refine ⟨sec :: secs, ?_, by simp [hlen], ?_⟩
      · simp [renderSectionsGo, hsec, hgo]
      · intro i hi hj
        cases i with
        | zero => exact ⟨fs, rfl, hsec⟩
        | succ n =>
          have hi2 : n < secs.length := by simpa using hi
          have hj2 : n < rest.length := by simpa using hj
          obtain ⟨fs2, hget, hri⟩ := hidx n hi2 hj2
          exact ⟨fs2, hget, hri⟩
    | null => simp [itemFieldsOk] at h1
    | bool b => simp [itemFieldsOk] at h1
    | num a b2 c2 d2 => simp [itemFieldsOk] at h1
    | inf b => simp [itemFieldsOk] at h1
    | nan => simp [itemFieldsOk] at h1
    | str s => simp [itemFieldsOk] at h1
    | arr xs => simp [itemFieldsOk] at h1

/-- Claim C1 amended: for every parsed JSON array whose first min(N,4)
objects carry, where present, only string field values, the renderer renders
exactly min(N,4) incident sections, in array order (the hard cap keeps only
the first four, fewer than four render without padding or error).  The
original unrestricted claim is refuted by `render_cap_counterexample`: a
truthy non-string field value makes safe_encode raise, failing the run with
no sections at all. -/
theorem render_cap_and_order (items : List Json)
    (h : (items.take 4).all itemFieldsOk = true) :
    ∃ secs, renderSections items = Except.ok secs ∧
      secs.length = min items.length 4 ∧
      ∀ i, (hi : i < secs.length) → (hj : i < items.length) →
        ∃ fs, items.get ⟨i, hj⟩ = Json.obj fs ∧
          renderItem fs = Except.ok (secs.get ⟨i, hi⟩) := by
  obtain ⟨secs, hgo, hlen, hidx⟩ := renderSectionsGo_ok (items.take 4) h
  refine ⟨secs, hgo, ?_, ?_⟩
  · rw [hlen, List.length_take]
    exact Nat.min_comm _ _
  · intro i hi hj
    have hi4 : i < 4 := by
      rw [hlen, List.length_take] at hi
      omega
    have hj2 : i < (items.take 4).length := by
      rw [List.length_take]
      omega
    obtain ⟨fs, hget, hri⟩ := hidx i hi hj2
    refine ⟨fs, ?_, hri⟩
    rw [← hget]
    rw [List.get_eq_getElem, List.get_eq_getElem]
    exact List.getElem_take' items hj hi4

theorem render_cap_and_order_witness :
    (([Json.obj [], Json.obj [], Json.obj [], Json.obj [], Json.obj []].take 4).all
        itemFieldsOk = true) ∧
    ∃ secs,
      renderSections [Json.obj [], Json.obj [], Json.obj [], Json.obj [], Json.obj []]
          = Except.ok secs ∧
      secs.length
          = min [Json.obj [], Json.obj [], Json.obj [], Json.obj [], Json.obj []].length 4 ∧
      ∀ i, (hi : i < secs.length) →
        (hj : i < [Json.obj [], Json.obj [], Json.obj [], Json.obj [], Json.obj []].length) →
        ∃ fs,
          [Json.obj [], Json.obj [], Json.obj [], Json.obj [], Json.obj []].get ⟨i, hj⟩
              = Json.obj fs ∧
          renderItem fs = Except.ok (secs.get ⟨i, hi⟩) :=
  ⟨by decide, render_cap_and_order _ (by decide)⟩

/-- Claim C1 as stated is false at this input: a parsed array of one object
whose title field holds the JSON value true renders no section at all - the
sanitizer raises AttributeError on the truthy non-string and the run fails -
instead of the claimed min(1,4) = 1 sections. -/
theorem render_cap_counterexample :
    renderSections [Json.obj [(pstr "title", Json.bool true)]]
        = Except.error (pstr "bool object has no attribute replace") ∧
    (renderSections [Json.obj [(pstr "title", Json.bool true)]]).toOption = none ∧
    min [Json.obj [(pstr "title", Json.bool true)]].length 4 = 1 :=
  ⟨rfl, rfl, rfl⟩

/-- Claim C5: record construction is six item.get calls with the Data Model
defaults - an absent title yields the placeholder N/A, an absent url the
placeholder Source URL missing, an absent industry General, and absent
summary, tip and Cyber Insurance fields the empty string - and absence is
never a hard failure: with every field absent the record still renders, on
defaults alone. -/
theorem record_field_defaults (fs : List (PyStr × Json)) :
    (dictGet fs (pstr "title") = none → (mkRecord fs).title = Json.str (pstr "N/A")) ∧
    (dictGet fs (pstr "url") = none →
      (mkRecord fs).url = Json.str (pstr "Source URL missing")) ∧
    (dictGet fs (pstr "industry") = none →
      (mkRecord fs).industry = Json.str (pstr "General")) ∧
    (dictGet fs (pstr "summary") = none → (mkRecord fs).summary = Json.str []) ∧
    (dictGet fs (pstr "tip") = none → (mkRecord fs).tip = Json.str []) ∧
    (dictGet fs (pstr "Cyber Insurance") = none → (mkRecord fs).insurance = Json.str []) ∧
    (dictGet fs (pstr "title") = none → dictGet fs (pstr "url") = none →
      dictGet fs (pstr "industry") = none → dictGet fs (pstr "summary") = none →
      dictGet fs (pstr "tip") = none → dictGet fs (pstr "Cyber Insurance") = none →
      renderItem fs = Except.ok
        ⟨pstr "N/A", pstr "Read Source: Source URL missing", pstr "Source URL missing",
         pstr "Industry: General", pstr "Summary: ", pstr "Risk Tip: ",
         pstr "Insurance: "⟩) := by
  refine ⟨?_, ?_, ?_, ?_, ?_, ?_, ?_⟩
  · intro h; simp [mkRecord, dictGetD, h]
  · intro h; simp [mkRecord, dictGetD, h]
  · intro h; simp [mkRecord, dictGetD, h]
  · intro h; simp [mkRecord, dictGetD, h]
  · intro h; simp [mkRecord, dictGetD, h]
  · intro h; simp [mkRecord, dictGetD, h]
  · intro h1 h2 h3 h4 h5 h6
    simp only [renderItem, mkRecord, dictGetD, h1, h2, h3, h4, h5, h6, Option.getD_none]
    rfl

theorem record_field_defaults_witness :
    (mkRecord []).title = Json.str (pstr "N/A") ∧
    (mkRecord []).url = Json.str (pstr "Source URL missing") ∧
    (mkRecord []).industry = Json.str (pstr "General") ∧
    (mkRecord []).summary = Json.str [] ∧
    (mkRecord []).tip = Json.str [] ∧
    (mkRecord []).insurance = Json.str [] ∧
    renderItem [] = Except.ok
      ⟨pstr "N/A", pstr "Read Source: Source URL missing", pstr "Source URL missing",
       pstr "Industry: General", pstr "Summary: ", pstr "Risk Tip: ",
       pstr "Insurance: "⟩ :=
  ⟨(record_field_defaults []).1 rfl,
   (record_field_defaults []).2.1 rfl,
   (record_field_defaults []).2.2.1 rfl,
   (record_field_defaults []).2.2.2.1 rfl,
   (record_field_defaults []).2.2.2.2.1 rfl,
   (record_field_defaults []).2.2.2.2.2.1 rfl,
   (record_field_defaults []).2.2.2.2.2.2 rfl rfl rfl rfl rfl rfl⟩

/-- Claim C6 as stated is false at this input: for the record with no url
field, the placeholder text is displayed, but the placeholder is also still
passed as the cell link argument, which is truthy, so the line is still
emitted as a clickable link (pointing at the placeholder) rather than as
plain text instead of a link. -/
theorem source_line_counterexample :
    (renderItem []).map sectionHasLink = Except.ok true ∧
    (renderItem []).map (fun sec => sec.linkArg)
        = Except.ok (pstr "Source URL missing") :=
  ⟨rfl, rfl⟩

/-- Claim C6 amended: in every rendered section, the source line displays the
sanitized Read Source text and receives the raw unsanitized url value as its
link argument (linked whenever that argument is nonempty); when the url field
is absent, the placeholder is displayed and is itself still passed as the
link argument, so the line remains a clickable link pointing at the
placeholder string. -/
theorem source_line_amended (fs : List (PyStr × Json)) (sec : RenderedSection)
    (h : renderItem fs = Except.ok sec) :
    (∀ u, dictGet fs (pstr "url") = some (Json.str u) →
        sec.linkArg = u ∧
        sec.sourceText = safe_encode (some (pstr "Read Source: " ++ u)) ∧
        sectionHasLink sec = !u.isEmpty) ∧
    (dictGet fs (pstr "url") = none →
        sec.linkArg = pstr "Source URL missing" ∧
        sec.sourceText = pstr "Read Source: Source URL missing" ∧
        sectionHasLink sec = true) := by
  simp only [renderItem] at h
  split at h
  next e heq => simp at h
  next titleTxt heq =>
    split at h
    next u hurl =>
      split at h
      next e heq2 => simp at h
      next industryTxt heq2 =>
        split at h
        next e heq3 => simp at h
        next summaryTxt heq3 =>
          split at h
          next e heq4 => simp at h
          next tipTxt heq4 =>
            split at h
            next e heq5 => simp at h
            next insTxt heq5 =>
              injection h with h
              subst h
              constructor
              · intro u2 hu2
                have hthis : (mkRecord fs).url = Json.str u2 := by
                  simp [mkRecord, dictGetD, hu2]
                rw [hurl] at hthis
                injection hthis with huu
                subst huu
                exact ⟨rfl, rfl, rfl⟩
              · intro hnone
                have hthis : (mkRecord fs).url = Json.str (pstr "Source URL missing") := by
                  simp [mkRecord, dictGetD, hnone]
                rw [hurl] at hthis
                injection hthis with huu
                subst huu
                exact ⟨rfl, rfl, rfl⟩
    next hne => simp at h

theorem source_line_amended_witness :
    ((RenderedSection.mk (pstr "N/A") (pstr "Read Source: http://a") (pstr "http://a")
        (pstr "Industry: General") (pstr "Summary: ") (pstr "Risk Tip: ")
        (pstr "Insurance: ")).linkArg = pstr "http://a") ∧
    ((RenderedSection.mk (pstr "N/A") (pstr "Read Source: http://a") (pstr "http://a")
        (pstr "Industry: General") (pstr "Summary: ") (pstr "Risk Tip: ")
        (pstr "Insurance: ")).sourceText
          = safe_encode (some (pstr "Read Source: " ++ pstr "http://a"))) ∧
    sectionHasLink
        (RenderedSection.mk (pstr "N/A") (pstr "Read Source: http://a") (pstr "http://a")
          (pstr "Industry: General") (pstr "Summary: ") (pstr "Risk Tip: ")
          (pstr "Insurance: "))
        = !(pstr "http://a").isEmpty :=
  (source_line_amended [(pstr "url", Json.str (pstr "http://a"))]
      (RenderedSection.mk (pstr "N/A") (pstr "Read Source: http://a") (pstr "http://a")
        (pstr "Industry: General") (pstr "Summary: ") (pstr "Risk Tip: ")
        (pstr "Insurance: ")) rfl).1 (pstr "http://a") rfl

/-- Claim C7: for every input string, the sanitizer output is exactly the
per-character map that applies the known substitutions - right and left
single quotation marks become an apostrophe, curly double quotes straight
quotes, en and em dashes a hyphen, the ellipsis three periods, and the shield
emoji (both of whose code points lie outside Latin-1) is removed - and
silently drops every remaining character above the Latin-1 range; in
particular every output character is representable in Latin-1. -/
theorem sanitizer_substitutions_latin1 (s : PyStr) :
    safe_encode (some s) = charConcatMap sanitizeChar s ∧
      (safe_encode (some s)).all (fun c => c.toNat ≤ 255) = true := by
  rw [safe_encode_some]
  exact ⟨sanitize_eq_charConcatMap s, sanitize_all_latin1 s⟩

/-- Claim C8: the sanitizer is total on its declared domain of a string or
None - it is a Lean function, defined for every such input - and empty or
None input yields the empty string without error. -/
theorem sanitizer_empty_or_none (o : Option PyStr)
    (h : o = none ∨ o = some []) : safe_encode o = [] := by
  rcases h with h | h <;> subst h <;> rfl

theorem sanitizer_empty_or_none_witness :
    safe_encode none = [] ∧ safe_encode (some []) = [] :=
  ⟨sanitizer_empty_or_none none (Or.inl rfl),
   sanitizer_empty_or_none (some []) (Or.inr rfl)⟩

/-- Claim C10: the sanitizer is idempotent - a second application of
safe_encode leaves its own output unchanged, since every character it emits
is Latin-1-representable and is not itself subject to any substitution. -/
theorem sanitizer_idempotent (s : PyStr) :
    safe_encode (some (safe_encode (some s))) = safe_encode (some s) := by
  rw [safe_encode_some, safe_encode_some, sanitize_idem]
